import Mathlib

/-!
Verification of `music_cover_scan.py` (music_library_cover_scanner).

This file gives a shallow embedding of the artwork-resolution pipeline of the
scanner and proves the specified properties about it.  The filesystem and the
two external collaborators (the tag-parsing library and the artwork catalog)
are modelled at their interfaces: a directory is a listing of entries, each
entry carrying the data the tag library would return for it, and the catalog
is a pair of oracles (search, download).  Bytes are lists of naturals,
machine strings are Lean strings.
-/

set_option maxRecDepth 8192

/-- Raw byte payloads (`bytes` in the source). -/
abbrev Bytes := List Nat

/-- Model of `bytes.startswith(sig)`: `startsWithSig sig data`. -/
def startsWithSig : Bytes → Bytes → Bool
  | [], _ => true
  | _ :: _, [] => false
  | s :: ss, d :: ds => s == d && startsWithSig ss ds

/-- Model of `looks_like_image` (music_cover_scan.py:217-231): signature check
for JPEG, PNG, GIF87a/GIF89a, BMP and WEBP, rejecting inputs shorter than
12 bytes. -/
def looks_like_image (data : Bytes) : Bool :=
  if data.isEmpty || data.length < 12 then false
  else if startsWithSig [0xff, 0xd8, 0xff] data then true
  else if startsWithSig [0x89, 0x50, 0x4e, 0x47, 0x0d, 0x0a, 0x1a, 0x0a] data then true
  else if startsWithSig [0x47, 0x49, 0x46, 0x38, 0x37, 0x61] data
          || startsWithSig [0x47, 0x49, 0x46, 0x38, 0x39, 0x61] data then true
  else if startsWithSig [0x42, 0x4d] data then true
  else if data.take 4 == [0x52, 0x49, 0x46, 0x46]
          && ((data.drop 8).take 4 == [0x57, 0x45, 0x42, 0x50]) then true
  else false

/-- Value of an easy-access tag field: a single string, an ordered sequence of
strings, or something of another shape (skipped by the reader). -/
inductive TagValue where
  | str (s : String)
  | strs (l : List String)
  | other
deriving DecidableEq, Repr

/-- An easy-access tag view: association list keyed by field name
(model of the dict-like `audio.tags` with `.get`). -/
abbrev Tags := List (String × TagValue)

/-- Model of `tags.get(name)`: first binding for `name`, if any. -/
def tagsGet (t : Tags) (name : String) : Option TagValue :=
  (t.find? (fun p => p.1 == name)).map (fun p => p.2)

/-- A directory child as the scanner sees it: its filename, whether it is a
regular file, the raw embedded-image bytes the tag library yields for it
(`extract_embedded_image_bytes`), and its easy tag view (`none` when the file
is unreadable or has no tags). -/
structure Entry where
  name : String
  isFile : Bool
  embedded : Option Bytes
  easyTags : Option Tags
deriving DecidableEq, Repr

/-- Model of `pathlib.Path.suffix`: the extension from the last dot, empty
when the name has no dot, starts with its only dot, or ends with the dot. -/
def lastIndexOfDot : List Char → Option Nat
  | [] => none
  | c :: rest =>
    match lastIndexOfDot rest with
    | some i => some (i + 1)
    | none => if c = '.' then some 0 else none

/-- Extension (with leading dot) of a filename, per `pathlib.Path.suffix`. -/
def pathSuffix (name : String) : String :=
  match lastIndexOfDot name.data with
  | none => ""
  | some i =>
    if 0 < i ∧ i < name.data.length - 1 then String.mk (name.data.drop i) else ""

/-- Model of Python `str.lower()`: lowercase each character. -/
def lowerStr (s : String) : String := String.mk (s.data.map Char.toLower)

/-- Model of Python `str.strip()`: drop whitespace from both ends. -/
def trimStr (s : String) : String :=
  String.mk (((s.data.dropWhile Char.isWhitespace).reverse.dropWhile Char.isWhitespace).reverse)

/-- Python truthiness of a string: non-empty. -/
def strTruthy (s : String) : Bool := !s.data.isEmpty

/-- Lexicographic comparison of char lists, the model of Python string `<=`
used by `sorted(key=lambda p: p.name.lower())`. -/
def charListLe : List Char → List Char → Bool
  | [], _ => true
  | _ :: _, [] => false
  | a :: as, b :: bs => if a < b then true else if b < a then false else charListLe as bs

/-- Sort key of a directory entry: its lowercased filename (as chars). -/
def keyOf (e : Entry) : List Char := (lowerStr e.name).data

/-- Ordering of entries by case-insensitive filename. -/
def entryLe (a b : Entry) : Prop := charListLe (keyOf a) (keyOf b) = true

instance : DecidableRel entryLe := fun a b =>
  inferInstanceAs (Decidable (charListLe (keyOf a) (keyOf b) = true))

/-- Strict key order: `keyLt x y` iff `x` sorts strictly before `y`. -/
def keyLt (x y : List Char) : Bool := !(charListLe y x)

/-- Filter of `p.is_file() and p.suffix.lower() in extensions`
(music_cover_scan.py:236). -/
def isAudioFile (exts : List String) (e : Entry) : Bool :=
  e.isFile && exts.contains (lowerStr (pathSuffix e.name))

/-- The audio files of a directory listing, unsorted. -/
def audioEntries (listing : List Entry) (exts : List String) : List Entry :=
  listing.filter (isAudioFile exts)

/-- The audio files sorted by case-insensitive filename.  Python's `sorted`
is a stable sort; `List.insertionSort` inserts each element before the first
element it compares `≤` to, which is the same stable order. -/
def sortedAudioEntries (listing : List Entry) (exts : List String) : List Entry :=
  List.insertionSort entryLe (audioEntries listing exts)

/-- Usability test applied per audio file by the probe:
`data and looks_like_image(data)` on the extracted bytes
(music_cover_scan.py:241). -/
def hasUsableArt (e : Entry) : Bool :=
  match e.embedded with
  | some d => !d.isEmpty && looks_like_image d
  | none => false

/-- Model of `pick_source_with_embedded_art` (music_cover_scan.py:234-243):
first audio file, in case-insensitive filename order, whose extracted
embedded bytes are non-empty and pass the image sniffer. -/
def pick_source_with_embedded_art (listing : List Entry) (exts : List String) : Option Entry :=
  (sortedAudioEntries listing exts).find? hasUsableArt

/-- Model of the inner `first_tag(*names)` of `extract_album_artist`
(music_cover_scan.py:270-281): first name whose value is a non-empty list
whose first element strips to a non-empty string, or a string that strips to
a non-empty string.  A list whose first element strips to empty contributes
nothing (the remaining elements are not consulted). -/
def first_tag (t : Tags) : List String → Option String
  | [] => none
  | n :: rest =>
    match tagsGet t n with
    | some (.strs (v :: _)) =>
      if strTruthy (trimStr v) then some (trimStr v) else first_tag t rest
    | some (.str s) =>
      if strTruthy (trimStr s) then some (trimStr s) else first_tag t rest
    | _ => first_tag t rest

/-- Model of `extract_album_artist` (music_cover_scan.py:253-285): `album`
field for the title, `albumartist` then `artist` for the artist; `(None,
None)` when the file has no readable tag view. -/
def extract_album_artist (e : Entry) : Option String × Option String :=
  match e.easyTags with
  | none => (none, none)
  | some t => (first_tag t ["album"], first_tag t ["albumartist", "artist"])

/-- An album directory as the walker sees it: its listing, its own name, its
parent directory's name (`none` models `dir_path.parent == dir_path`),
whether `cover.jpg` / `album.jpg` exist as regular files, and whether a write
of `cover.jpg` into it would succeed. -/
structure Dir where
  entries : List Entry
  name : String
  parentName : Option String
  hasCoverJpg : Bool
  hasAlbumJpg : Bool
  writeOk : Bool
deriving DecidableEq, Repr

/-- Python truthiness of an optional string. -/
def optTruthy : Option String → Bool
  | some s => strTruthy s
  | none => false

/-- The artist fallback of `album_artist_from_dir`: the stripped parent
directory name, or `"Unknown Artist"` when it is empty or the directory is
its own parent (music_cover_scan.py:295-300). -/
def parentFallbackArtist (d : Dir) : String :=
  match d.parentName with
  | some p => if strTruthy (trimStr p) then trimStr p else "Unknown Artist"
  | none => "Unknown Artist"

/-- The `for audio_file in files` loop of `album_artist_from_dir`
(music_cover_scan.py:290-296). -/
def albumArtistLoop (d : Dir) : List Entry → Option (String × String)
  | [] => none
  | f :: fs =>
    if optTruthy (extract_album_artist f).1 && optTruthy (extract_album_artist f).2 then
      some ((extract_album_artist f).1.getD "", (extract_album_artist f).2.getD "")
    else if optTruthy (extract_album_artist f).1 then
      some ((extract_album_artist f).1.getD "", parentFallbackArtist d)
    else albumArtistLoop d fs

/-- Model of `iter_audio_files` (music_cover_scan.py:246-250). -/
def iter_audio_files (d : Dir) (exts : List String) : List Entry :=
  sortedAudioEntries d.entries exts

/-- Model of `album_artist_from_dir` (music_cover_scan.py:288-300). -/
def album_artist_from_dir (d : Dir) (exts : List String) : String × String :=
  match albumArtistLoop d (iter_audio_files d exts) with
  | some r => r
  | none =>
    (if strTruthy (trimStr d.name) then trimStr d.name else "Unknown Album",
      parentFallbackArtist d)

/-- A search result of the catalog: whether the JSON item is an object, its
thumbnail URL field (`artworkUrl100`, `none` when missing), and its
`collectionName` / `artistName` fields after `str(...)` coercion. -/
structure CatalogItem where
  isDict : Bool
  artworkUrl100 : Option String
  collectionName : String
  artistName : String
deriving DecidableEq, Repr

/-- Model of list prefix test for chars (used by substring containment). -/
def startsWithChars : List Char → List Char → Bool
  | [], _ => true
  | _ :: _, [] => false
  | a :: as, b :: bs => a == b && startsWithChars as bs

/-- Containment of `needle` in a char list at any position. -/
def subOfChars (needle : List Char) : List Char → Bool
  | [] => needle.isEmpty
  | c :: rest => startsWithChars needle (c :: rest) || subOfChars needle rest

/-- Model of Python `needle in hay` on strings. -/
def strContains (hay needle : String) : Bool := subOfChars needle.data hay.data

/-- The candidate-selection loop of `fetch_itunes_artwork_bytes`
(music_cover_scan.py:326-341), with `preferred` the `preferred_url`
accumulator.  `la`/`lr` are the lowered and stripped query album and
artist. -/
def selectLoop (la lr : String) (preferred : Option String) :
    List CatalogItem → Option String
  | [] => preferred
  | item :: rest =>
    if !item.isDict then selectLoop la lr preferred rest
    else
      match item.artworkUrl100 with
      | none => selectLoop la lr preferred rest
      | some url =>
        if !strTruthy url then selectLoop la lr preferred rest
        else
          if strTruthy la && strContains (trimStr (lowerStr item.collectionName)) la
              && (!strTruthy lr || strContains (trimStr (lowerStr item.artistName)) lr) then
            some url
          else
            selectLoop la lr (if preferred.isNone then some url else preferred) rest

/-- Candidate selection of `fetch_itunes_artwork_bytes` over a decoded
search-result list: the value of `preferred_url` after the loop. -/
def select_artwork_url (album artist : String) (results : List CatalogItem) : Option String :=
  selectLoop (trimStr (lowerStr album)) (trimStr (lowerStr artist)) none results

/-- The two network oracles of the catalog client: the decoded `results`
array of the search endpoint for a (album, artist) query (`none` models a
transport/parse failure or a non-list payload), and the byte payload behind
a URL (`none` models a transport failure). -/
structure Network where
  searchResults : String → String → Option (List CatalogItem)
  download : String → Option Bytes

/-- Model of `fetch_itunes_artwork_bytes` (music_cover_scan.py:303-354):
search, candidate selection, high-resolution URL rewrite, download, and
image-signature validation of the downloaded payload. -/
def fetch_itunes_artwork_bytes (net : Network) (album artist : String) : Option Bytes :=
  match net.searchResults album artist with
  | none => none
  | some results =>
    match select_artwork_url album artist results with
    | none => none
    | some url =>
      match net.download (String.replace url "100x100bb" "1200x1200bb") with
      | none => none
      | some data => if looks_like_image data then some data else none

/-- The action flags of the CLI (music_cover_scan.py:56-136). -/
structure Args where
  scan_missing_cover : Bool
  extract : Bool
  report_missing_artwork : Bool
  download_missing_artwork : Bool
  dry_run : Bool
deriving DecidableEq, Repr

/-- Model of `ScanStats` (music_cover_scan.py:45-53). -/
structure ScanStats where
  album_dirs_scanned : Nat := 0
  album_dirs_with_cover_jpg : Nat := 0
  album_dirs_missing_cover_jpg : Nat := 0
  covers_extracted : Nat := 0
  extraction_failures : Nat := 0
  artwork_downloaded : Nat := 0
  download_failures : Nat := 0
deriving DecidableEq, Repr

/-- Fieldwise sum of two counter aggregates. -/
def addStats (s t : ScanStats) : ScanStats :=
  { album_dirs_scanned := s.album_dirs_scanned + t.album_dirs_scanned,
    album_dirs_with_cover_jpg := s.album_dirs_with_cover_jpg + t.album_dirs_with_cover_jpg,
    album_dirs_missing_cover_jpg := s.album_dirs_missing_cover_jpg + t.album_dirs_missing_cover_jpg,
    covers_extracted := s.covers_extracted + t.covers_extracted,
    extraction_failures := s.extraction_failures + t.extraction_failures,
    artwork_downloaded := s.artwork_downloaded + t.artwork_downloaded,
    download_failures := s.download_failures + t.download_failures }

/-- Python truthiness of an optional byte payload. -/
def bytesTruthy : Option Bytes → Bool
  | some b => !b.isEmpty
  | none => false

/-- Result of a `write_cover_jpg` call: the directory afterwards, the
returned success flag, and the payloads actually written to disk. -/
structure WriteResult where
  dir : Dir
  ok : Bool
  written : List Bytes
deriving DecidableEq, Repr

/-- Model of `write_cover_jpg` (music_cover_scan.py:357-368): in dry-run the
write is skipped and reported successful; otherwise it succeeds iff the
directory is writable. -/
def write_cover_jpg (d : Dir) (data : Bytes) (dry : Bool) : WriteResult :=
  if dry then ⟨d, true, []⟩
  else if d.writeOk then ⟨{ d with hasCoverJpg := true }, true, [data]⟩
  else ⟨d, false, []⟩

/-- Outcome of one action branch on one directory. -/
structure ActionResult where
  dir : Dir
  stats : ScanStats
  written : List Bytes
deriving DecidableEq, Repr

/-- The `--extract` branch of `process_album_dirs`
(music_cover_scan.py:397-406). -/
def extractStep (a : Args) (has_cover : Bool) (embedded_data : Option Bytes) (d : Dir) :
    ActionResult :=
  if a.extract && !has_cover then
    if bytesTruthy embedded_data then
      ActionResult.mk (write_cover_jpg d (embedded_data.getD []) a.dry_run).dir
        (if (write_cover_jpg d (embedded_data.getD []) a.dry_run).ok then
          { covers_extracted := 1 } else { extraction_failures := 1 })
        (write_cover_jpg d (embedded_data.getD []) a.dry_run).written
    else ⟨d, { extraction_failures := 1 }, []⟩
  else ⟨d, {}, []⟩

/-- The `--download-missing-artwork` branch of `process_album_dirs`
(music_cover_scan.py:413-432).  `origDir` is the directory as scanned (used
for the `album.jpg` probe and the identity derivation), `d` the directory
after the extract branch; the second component records whether the catalog
lookup was invoked. -/
def downloadStep (net : Network) (a : Args) (exts : List String) (origDir : Dir)
    (has_cover : Bool) (embedded_source : Option Entry) (embedded_data : Option Bytes)
    (d : Dir) : ActionResult × Bool :=
  if a.download_missing_artwork
      && (!has_cover && !origDir.hasAlbumJpg
          && !(embedded_source.isSome && embedded_data.isSome)) then
    if bytesTruthy (fetch_itunes_artwork_bytes net
        (album_artist_from_dir origDir exts).1 (album_artist_from_dir origDir exts).2) then
      (ActionResult.mk
        (write_cover_jpg d ((fetch_itunes_artwork_bytes net
          (album_artist_from_dir origDir exts).1
          (album_artist_from_dir origDir exts).2).getD []) a.dry_run).dir
        (if (write_cover_jpg d ((fetch_itunes_artwork_bytes net
            (album_artist_from_dir origDir exts).1
            (album_artist_from_dir origDir exts).2).getD []) a.dry_run).ok then
          { artwork_downloaded := 1 } else { download_failures := 1 })
        (write_cover_jpg d ((fetch_itunes_artwork_bytes net
          (album_artist_from_dir origDir exts).1
          (album_artist_from_dir origDir exts).2).getD []) a.dry_run).written,
        true)
    else (⟨d, { download_failures := 1 }, []⟩, true)
  else (⟨d, {}, []⟩, false)

/-- Outcome of processing one album directory. -/
structure StepResult where
  newDir : Dir
  stats : ScanStats
  fetchedCatalog : Bool
  written : List Bytes
deriving Repr

/-- Model of one iteration of the `for album_dir in iter_album_dirs` loop of
`process_album_dirs` (music_cover_scan.py:375-432): cover classification,
embedded-art probe (gated by the action flags), extract branch, download
branch. -/
def process_album_dir (net : Network) (a : Args) (exts : List String) (d : Dir) : StepResult :=
  let has_cover := d.hasCoverJpg
  let base : ScanStats :=
    { album_dirs_scanned := 1,
      album_dirs_with_cover_jpg := if has_cover then 1 else 0,
      album_dirs_missing_cover_jpg := if has_cover then 0 else 1 }
  let embedded_source :=
    if a.extract || a.report_missing_artwork || a.download_missing_artwork then
      pick_source_with_embedded_art d.entries exts
    else none
  let embedded_data := embedded_source.bind (fun e => e.embedded)
  let ex := extractStep a has_cover embedded_data d
  let dl := downloadStep net a exts d has_cover embedded_source embedded_data ex.dir
  { newDir := dl.1.dir,
    stats := addStats base (addStats ex.stats dl.1.stats),
    fetchedCatalog := dl.2,
    written := ex.written ++ dl.1.written }

/-- Outcome of a whole run over the discovered album directories. -/
structure RunResult where
  stats : ScanStats
  dirs : List Dir
  written : List Bytes
deriving Repr

/-- Model of `process_album_dirs` over the album directories discovered by
the walk, in discovery order. -/
def runScan (net : Network) (a : Args) (exts : List String) : List Dir → RunResult
  | [] => { stats := {}, dirs := [], written := [] }
  | d :: ds =>
    { stats := addStats (process_album_dir net a exts d).stats (runScan net a exts ds).stats,
      dirs := (process_album_dir net a exts d).newDir :: (runScan net a exts ds).dirs,
      written := (process_album_dir net a exts d).written ++ (runScan net a exts ds).written }

/-! ### Specification-side definitions

These follow the wording of the specification (and of the claims), to be
compared with the definitions above that were translated from the source. -/

/-- Image signatures as the specification words them: an input of at least
12 bytes starting with one of the five recognized signatures. -/
def SnifferSpec (d : Bytes) : Prop :=
  12 ≤ d.length ∧
    (d.take 3 = [0xff, 0xd8, 0xff] ∨
     d.take 8 = [0x89, 0x50, 0x4e, 0x47, 0x0d, 0x0a, 0x1a, 0x0a] ∨
     d.take 6 = [0x47, 0x49, 0x46, 0x38, 0x37, 0x61] ∨
     d.take 6 = [0x47, 0x49, 0x46, 0x38, 0x39, 0x61] ∨
     d.take 2 = [0x42, 0x4d] ∨
     (d.take 4 = [0x52, 0x49, 0x46, 0x46] ∧ (d.drop 8).take 4 = [0x57, 0x45, 0x42, 0x50]))

instance (d : Bytes) : Decidable (SnifferSpec d) := by
  unfold SnifferSpec; infer_instance

/-- Field value per the specification's words: a string field contributes its
trimmed value when non-empty; a sequence field contributes the first
non-empty trimmed entry of the sequence. -/
def specFieldValue (t : Tags) (name : String) : Option String :=
  match tagsGet t name with
  | some (.str s) => if strTruthy (trimStr s) then some (trimStr s) else none
  | some (.strs l) => (l.map trimStr).find? strTruthy
  | _ => none

/-- Field value as the code actually behaves: a sequence field contributes
only its first entry, trimmed, and only when that is non-empty. -/
def specFieldValueAmended (t : Tags) (name : String) : Option String :=
  match tagsGet t name with
  | some (.str s) => if strTruthy (trimStr s) then some (trimStr s) else none
  | some (.strs (v :: _)) => if strTruthy (trimStr v) then some (trimStr v) else none
  | _ => none

/-- Priority lookup over field names: the first name whose field contributes
a value. -/
def specLookup (f : Tags → String → Option String) (t : Tags) : List String → Option String
  | [] => none
  | n :: rest =>
    match f t n with
    | some s => some s
    | none => specLookup f t rest

/-- Album/artist extraction as the specification words it. -/
def specExtract (f : Tags → String → Option String) (t : Tags) : Option String × Option String :=
  (specLookup f t ["album"], specLookup f t ["albumartist", "artist"])

/-- AlbumIdentity as the specification words it: the pair from the first
audio file (case-insensitive filename order) whose tags contain an album
title, the artist falling back to the parent directory name; both fields
falling back to directory-derived names when no file yields a title. -/
def specAlbumIdentity (d : Dir) (exts : List String) : String × String :=
  match (iter_audio_files d exts).find? (fun f => optTruthy (extract_album_artist f).1) with
  | some f =>
    ((extract_album_artist f).1.getD "",
      if optTruthy (extract_album_artist f).2 then (extract_album_artist f).2.getD ""
      else parentFallbackArtist d)
  | none =>
    (if strTruthy (trimStr d.name) then trimStr d.name else "Unknown Album",
      parentFallbackArtist d)

/-- Whether a search result exposes a (truthy) thumbnail URL. -/
def itemHasThumb (i : CatalogItem) : Bool :=
  i.isDict && (match i.artworkUrl100 with | some u => strTruthy u | none => false)

/-- The preferred-match test of the claim, over lowered and stripped query
album `la` and artist `lr`: the catalog album name contains the query album
and (the query artist is empty or the catalog artist contains it). -/
def itemPreferred (la lr : String) (i : CatalogItem) : Bool :=
  strContains (trimStr (lowerStr i.collectionName)) la
    && (!strTruthy lr || strContains (trimStr (lowerStr i.artistName)) lr)

/-- Candidate selection as the specification words it, parameterized by the
preferred-match test: the first preferred result with a thumbnail, else the
first result with any thumbnail, else absent. -/
def specSelect (pred : String → String → CatalogItem → Bool) (album artist : String)
    (results : List CatalogItem) : Option String :=
  match (results.filter itemHasThumb).find?
      (pred (trimStr (lowerStr album)) (trimStr (lowerStr artist))) with
  | some i => i.artworkUrl100
  | none => (results.filter itemHasThumb).head?.bind (fun i => i.artworkUrl100)

/-- Candidate selection with the claim's preferred-match test verbatim. -/
def specSelectOrig (album artist : String) (results : List CatalogItem) : Option String :=
  specSelect itemPreferred album artist results

/-- Candidate selection with the preferred-match test the code implements:
a result is preferred only when the trimmed query album is non-empty. -/
def specSelectAmended (album artist : String) (results : List CatalogItem) : Option String :=
  specSelect (fun la lr i => strTruthy la && itemPreferred la lr i) album artist results

/-! ### Concrete data for witnesses and counterexamples -/

/-- A network where every search and every download fails. -/
def exNet : Network := ⟨fun _ _ => none, fun _ => none⟩

/-- Flags of an `--extract` run (no dry-run). -/
def exArgsExtract : Args := ⟨false, true, false, false, false⟩

/-- A minimal valid JPEG payload (signature plus padding to 12 bytes). -/
def exJpeg : Bytes := [0xff, 0xd8, 0xff, 0, 0, 0, 0, 0, 0, 0, 0, 0]

/-- A second, different valid JPEG payload. -/
def exJpeg2 : Bytes := [0xff, 0xd8, 0xff, 0, 0, 0, 0, 0, 0, 0, 0, 1]

/-- An audio file named `A.mp3` carrying the first embedded image. -/
def exEntryUpper : Entry := ⟨"A.mp3", true, some exJpeg, none⟩

/-- An audio file named `a.mp3` carrying the second embedded image. -/
def exEntryLower : Entry := ⟨"a.mp3", true, some exJpeg2, none⟩

/-- An audio file named `b.mp3` carrying the second embedded image. -/
def exEntryB : Entry := ⟨"b.mp3", true, some exJpeg2, none⟩

/-- An album directory with one track carrying embedded art and no cover. -/
def exDirX : Dir :=
  ⟨[⟨"track1.mp3", true, some exJpeg, none⟩], "AlbumX", some "ArtistX", false, false, true⟩

/-- A tag view whose `album` field is a sequence with an empty first entry. -/
def exTagsSeq : Tags := [("album", TagValue.strs ["", "Tago Mago"])]

/-- An audio file with `exTagsSeq` as its tag view. -/
def exEntrySeq : Entry := ⟨"t.mp3", true, none, some exTagsSeq⟩

/-- A tag view with a string `album` field and a sequence `artist` field. -/
def exTagsFull : Tags :=
  [("album", TagValue.str "Great Album"), ("artist", TagValue.strs ["Great Artist"])]

/-- An audio file with `exTagsFull` as its tag view. -/
def exEntryTagged : Entry := ⟨"t2.mp3", true, none, some exTagsFull⟩

/-- A search result with a thumbnail whose artist does not match. -/
def exItemOther : CatalogItem := ⟨true, some "url1", "Some Album", "Someone Else"⟩

/-- A search result with a thumbnail whose artist matches. -/
def exItemMatch : CatalogItem := ⟨true, some "url2", "Some Album", "The Artist"⟩

/-! ### Helper lemmas -/

theorem startsWithSig_iff : ∀ s d : Bytes, startsWithSig s d = true ↔ d.take s.length = s
  | [], d => by simp [startsWithSig]
  | s :: ss, [] => by simp [startsWithSig]
  | s :: ss, d :: ds => by
    simp only [startsWithSig, List.length_cons, List.take_succ_cons, List.cons.injEq,
      Bool.and_eq_true, beq_iff_eq, startsWithSig_iff ss ds]
    exact and_congr_left (fun _ => eq_comm)

theorem hasUsableArt_embedded {e : Entry} (h : hasUsableArt e = true) :
    ∃ b, e.embedded = some b ∧ b.isEmpty = false ∧ looks_like_image b = true := by
  unfold hasUsableArt at h
  match he : e.embedded with
  | none => rw [he] at h; exact absurd h (by simp)
  | some b =>
    rw [he] at h
    simp only [Bool.and_eq_true, Bool.not_eq_true'] at h
    exact ⟨b, rfl, h.1, h.2⟩

theorem pick_source_some_pred {l : List Entry} {exts : List String} {e : Entry}
    (h : pick_source_with_embedded_art l exts = some e) : hasUsableArt e = true :=
  List.find?_some h

/-- C8: the image sniffer accepts exactly the byte strings of length at least
12 starting with one of the five recognized signatures. -/
theorem C8_sniffer_signatures (d : Bytes) : looks_like_image d = true ↔ SnifferSpec d := by
  unfold looks_like_image SnifferSpec
  have hlen : (d.isEmpty || decide (d.length < 12)) = false ↔ 12 ≤ d.length := by
    constructor
    · intro h
      simp only [Bool.or_eq_false_iff, decide_eq_false_iff_not, not_lt] at h
      exact h.2
    · intro h
      simp only [Bool.or_eq_false_iff, decide_eq_false_iff_not, not_lt]
      exact ⟨by cases d with
        | nil => simp at h
        | cons x xs => simp [List.isEmpty], h⟩
  split_ifs with h1 h2 h3 h4 h5 h6 <;>
    simp_all [startsWithSig_iff, Bool.or_eq_true, Bool.and_eq_true, beq_iff_eq, hlen]
  all_goals tauto

/-- C2: the catalog lookup is invoked iff download is enabled, there is no
cover.jpg, no album.jpg, and the embedded-art probe found nothing usable. -/
theorem C2_catalog_gate (net : Network) (a : Args) (exts : List String) (d : Dir) :
    (process_album_dir net a exts d).fetchedCatalog =
      (a.download_missing_artwork && !d.hasCoverJpg && !d.hasAlbumJpg
        && (pick_source_with_embedded_art d.entries exts).isNone) := by
  unfold process_album_dir downloadStep
  cases hdl : a.download_missing_artwork with
  | false => simp [hdl]
  | true =>
    cases hp : pick_source_with_embedded_art d.entries exts with
    | none => simp [hdl, hp, apply_ite Prod.snd]
    | some e =>
      obtain ⟨b, hb, -, -⟩ := hasUsableArt_embedded (pick_source_some_pred hp)
      simp [hdl, hp, hb, apply_ite Prod.snd]

theorem charListLe_refl : ∀ l : List Char, charListLe l l = true
  | [] => rfl
  | c :: cs => by simp [charListLe, charListLe_refl cs]

theorem charListLe_total : ∀ x y : List Char, charListLe x y = true ∨ charListLe y x = true
  | [], _ => Or.inl rfl
  | _ :: _, [] => Or.inr rfl
  | a :: as, b :: bs => by
    rcases lt_trichotomy a b with h | h | h
    · left; simp [charListLe, h]
    · subst h
      rcases charListLe_total as bs with h | h
      · left; simp [charListLe, lt_irrefl, h]
      · right; simp [charListLe, lt_irrefl, h]
    · right; simp [charListLe, h]

theorem charListLe_trans : ∀ x y z : List Char,
    charListLe x y = true → charListLe y z = true → charListLe x z = true
  | [], _, _ => fun _ _ => rfl
  | _ :: _, [], _ => fun h _ => by simp [charListLe] at h
  | _ :: _, _ :: _, [] => fun _ h => by simp [charListLe] at h
  | a :: as, b :: bs, c :: cs => fun h1 h2 => by
    rcases lt_trichotomy a b with hab | hab | hab
    · rcases lt_trichotomy b c with hbc | hbc | hbc
      · simp [charListLe, lt_trans hab hbc]
      · subst hbc; simp [charListLe, hab]
      · simp [charListLe, hbc, lt_asymm hbc] at h2
    · subst hab
      rcases lt_trichotomy a c with hbc | hbc | hbc
      · simp [charListLe, hbc]
      · subst hbc
        simp only [charListLe, lt_irrefl, if_false] at h1 h2 ⊢
        exact charListLe_trans as bs cs h1 h2
      · simp [charListLe, hbc, lt_asymm hbc] at h2
    · simp [charListLe, hab, lt_asymm hab] at h1

theorem charListLe_antisymm : ∀ x y : List Char,
    charListLe x y = true → charListLe y x = true → x = y
  | [], [] => fun _ _ => rfl
  | [], _ :: _ => fun _ h => by simp [charListLe] at h
  | _ :: _, [] => fun h _ => by simp [charListLe] at h
  | a :: as, b :: bs => fun h1 h2 => by
    rcases lt_trichotomy a b with hab | hab | hab
    · simp [charListLe, hab, lt_asymm hab] at h2
    · subst hab
      simp only [charListLe, lt_irrefl, if_false] at h1 h2
      rw [charListLe_antisymm as bs h1 h2]
    · simp [charListLe, hab, lt_asymm hab] at h1

instance : IsTotal Entry entryLe :=
  ⟨fun a b => charListLe_total (keyOf a) (keyOf b)⟩

instance : IsTrans Entry entryLe :=
  ⟨fun _ _ _ h1 h2 => charListLe_trans _ _ _ h1 h2⟩

/-- Two sorted lists that are permutations of each other and have no
duplicate sort keys are equal. -/
theorem sorted_perm_nodupKeys_eq : ∀ l1 l2 : List Entry,
    l1.Sorted entryLe → l2.Sorted entryLe → List.Perm l1 l2 →
    (l1.map keyOf).Nodup → l1 = l2
  | [], l2, _, _, p, _ => p.nil_eq
  | a :: t1, l2, s1, s2, p, nd => by
    cases l2 with
    | nil => exact absurd p.eq_nil (by simp)
    | cons b t2 =>
      have hb1 : b ∈ a :: t1 := p.symm.subset (List.mem_cons_self b t2)
      have hab : entryLe a b := by
        rcases List.mem_cons.mp hb1 with h | h
        · rw [h]; exact charListLe_refl _
        · exact List.rel_of_sorted_cons s1 b h
      have ha2 : a ∈ b :: t2 := p.subset (List.mem_cons_self a t1)
      have hba : entryLe b a := by
        rcases List.mem_cons.mp ha2 with h | h
        · rw [h]; exact charListLe_refl _
        · exact List.rel_of_sorted_cons s2 a h
      have hkey : keyOf a = keyOf b := charListLe_antisymm _ _ hab hba
      have hb : b = a := by
        rcases List.mem_cons.mp hb1 with h | h
        · exact h
        · exact absurd (hkey ▸ List.mem_map_of_mem keyOf h)
            ((List.nodup_cons.mp nd).1)
      subst hb
      have := sorted_perm_nodupKeys_eq t1 t2 s1.of_cons s2.of_cons
        p.cons_inv (List.nodup_cons.mp nd).2
      rw [this]

/-- The element `find?` returns from a sorted list satisfies the predicate,
belongs to the list, and every element with a strictly smaller key fails the
predicate. -/
theorem find?_sorted_first : ∀ l : List Entry, l.Sorted entryLe →
    ∀ e : Entry, l.find? hasUsableArt = some e →
      hasUsableArt e = true ∧ e ∈ l ∧
        ∀ f ∈ l, keyLt (keyOf f) (keyOf e) = true → hasUsableArt f = false
  | [], _, e => by intro h; simp at h
  | a :: t, s, e => by
    intro h
    cases hpa : hasUsableArt a with
    | true =>
      rw [List.find?_cons_of_pos _ hpa] at h
      obtain rfl : a = e := by injection h
      refine ⟨hpa, List.mem_cons_self a t, ?_⟩
      intro f hf hlt
      rcases List.mem_cons.mp hf with h' | h'
      · subst h'
        rw [keyLt, charListLe_refl] at hlt
        simp at hlt
      · have : entryLe a f := List.rel_of_sorted_cons s f h'
        rw [keyLt, this] at hlt
        simp at hlt
    | false =>
      rw [List.find?_cons_of_neg _ (by simp [hpa])] at h
      obtain ⟨h1, h2, h3⟩ := find?_sorted_first t s.of_cons e h
      refine ⟨h1, List.mem_cons_of_mem a h2, ?_⟩
      intro f hf hlt
      rcases List.mem_cons.mp hf with h' | h'
      · subst h'; exact hpa
      · exact h3 f h' hlt

/-- C1 (amended): the embedded-art probe returns a file that passes the
usable-art check while every audio file with a strictly smaller
case-insensitive name fails it (and when it returns nothing, every audio
file fails it); and the result is independent of the filesystem listing
order provided no two audio files have case-insensitively equal names. -/
theorem C1_probe_first_and_order_independent (exts : List String) (l1 l2 : List Entry)
    (hperm : List.Perm l1 l2)
    (hnd : ((audioEntries l1 exts).map keyOf).Nodup) :
    pick_source_with_embedded_art l1 exts = pick_source_with_embedded_art l2 exts ∧
    (∀ e, pick_source_with_embedded_art l1 exts = some e →
      hasUsableArt e = true ∧ e ∈ audioEntries l1 exts ∧
        ∀ f ∈ audioEntries l1 exts, keyLt (keyOf f) (keyOf e) = true →
          hasUsableArt f = false) ∧
    (pick_source_with_embedded_art l1 exts = none →
      ∀ f ∈ audioEntries l1 exts, hasUsableArt f = false) := by
  have hs1 : (sortedAudioEntries l1 exts).Sorted entryLe := List.sorted_insertionSort _ _
  have hs2 : (sortedAudioEntries l2 exts).Sorted entryLe := List.sorted_insertionSort _ _
  have hp1 : List.Perm (sortedAudioEntries l1 exts) (audioEntries l1 exts) :=
    List.perm_insertionSort _ _
  have hp2 : List.Perm (sortedAudioEntries l2 exts) (audioEntries l2 exts) :=
    List.perm_insertionSort _ _
  have hpf : List.Perm (audioEntries l1 exts) (audioEntries l2 exts) := hperm.filter _
  have hnds : ((sortedAudioEntries l1 exts).map keyOf).Nodup :=
    ((hp1.map keyOf).nodup_iff).mpr hnd
  have heq : sortedAudioEntries l1 exts = sortedAudioEntries l2 exts :=
    sorted_perm_nodupKeys_eq _ _ hs1 hs2 (hp1.trans (hpf.trans hp2.symm)) hnds
  refine ⟨?_, ?_, ?_⟩
  · unfold pick_source_with_embedded_art
    rw [heq]
  · intro e he
    obtain ⟨h1, h2, h3⟩ := find?_sorted_first _ hs1 e he
    exact ⟨h1, hp1.subset h2, fun f hf hlt => h3 f (hp1.mem_iff.mpr hf) hlt⟩
  · intro he f hf
    have := List.find?_eq_none.mp he f (hp1.mem_iff.mpr hf)
    simpa using this

/-- C1 witness: for a directory with two audio files whose lowercased names
differ, the probe result is unchanged when the listing is reordered. -/
theorem C1_probe_witness :
    ((audioEntries [exEntryB, exEntryLower] [".mp3"]).map keyOf).Nodup ∧
    pick_source_with_embedded_art [exEntryB, exEntryLower] [".mp3"] =
      pick_source_with_embedded_art [exEntryLower, exEntryB] [".mp3"] :=
  ⟨by decide,
    (C1_probe_first_and_order_independent [".mp3"] [exEntryB, exEntryLower]
      [exEntryLower, exEntryB] (List.Perm.swap exEntryLower exEntryB [])
      (by decide)).1⟩

/-- C1 counterexample: two listings of the same directory contents (audio
files `A.mp3` and `a.mp3`, each with different valid embedded images) make
the probe return different files, so the probe result is not independent of
the filesystem listing order. -/
theorem C1_probe_listing_order_cex :
    List.Perm [exEntryLower, exEntryUpper] [exEntryUpper, exEntryLower] ∧
    pick_source_with_embedded_art [exEntryUpper, exEntryLower] [".mp3"] ≠
      pick_source_with_embedded_art [exEntryLower, exEntryUpper] [".mp3"] :=
  ⟨List.Perm.swap exEntryUpper exEntryLower [], by decide⟩

/-- The selection loop computes: the first thumbnail-bearing result passing
the code's preferred test, else the accumulator, else the first
thumbnail-bearing result at all. -/
theorem selectLoop_spec (la lr : String) : ∀ (results : List CatalogItem) (preferred : Option String),
    selectLoop la lr preferred results =
      (match (results.filter itemHasThumb).find? (fun i => strTruthy la && itemPreferred la lr i) with
      | some i => i.artworkUrl100
      | none =>
        match preferred with
        | some u => some u
        | none => (results.filter itemHasThumb).head?.bind (fun i => i.artworkUrl100))
  | [], preferred => by cases preferred <;> rfl
  | item :: rest, preferred => by
    by_cases hd : item.isDict
    · cases hurl : item.artworkUrl100 with
      | none =>
        have hth : itemHasThumb item = false := by simp [itemHasThumb, hurl]
        simp only [selectLoop, hd, Bool.not_true, if_false, hurl, List.filter_cons, hth]
        exact selectLoop_spec la lr rest preferred
      | some url =>
        by_cases hu : strTruthy url
        · have hth : itemHasThumb item = true := by simp [itemHasThumb, hurl, hd, hu]
          have hfil : List.filter itemHasThumb (item :: rest) =
              item :: List.filter itemHasThumb rest := List.filter_cons_of_pos hth
          by_cases hpref : (strTruthy la && itemPreferred la lr item) = true
          · have hcond : (strTruthy la && strContains (trimStr (lowerStr item.collectionName)) la
                && (!strTruthy lr || strContains (trimStr (lowerStr item.artistName)) lr)) = true := by
              simp only [itemPreferred, Bool.and_eq_true] at hpref ⊢
              exact ⟨⟨hpref.1, hpref.2.1⟩, hpref.2.2⟩
            have hLHS : selectLoop la lr preferred (item :: rest) = some url := by
              simp [selectLoop, hd, hurl, hu, hcond]
            have hfind : List.find? (fun i => strTruthy la && itemPreferred la lr i)
                (item :: List.filter itemHasThumb rest) = some item :=
              List.find?_cons_of_pos _ hpref
            rw [hLHS, hfil, hfind]
            simp [hurl]
          · have hcond : (strTruthy la && strContains (trimStr (lowerStr item.collectionName)) la
                && (!strTruthy lr || strContains (trimStr (lowerStr item.artistName)) lr)) = false := by
              simp only [itemPreferred, Bool.and_eq_true] at hpref
              by_cases h1 : strTruthy la = true <;>
                by_cases h2 : strContains (trimStr (lowerStr item.collectionName)) la = true <;>
                by_cases h3 : (!strTruthy lr
                  || strContains (trimStr (lowerStr item.artistName)) lr) = true <;>
                simp_all
            have hLHS : selectLoop la lr preferred (item :: rest) =
                selectLoop la lr (if preferred.isNone then some url else preferred) rest := by
              simp [selectLoop, hd, hurl, hu, hcond]
            have hfind : List.find? (fun i => strTruthy la && itemPreferred la lr i)
                (item :: List.filter itemHasThumb rest) =
                List.find? (fun i => strTruthy la && itemPreferred la lr i)
                  (List.filter itemHasThumb rest) :=
              List.find?_cons_of_neg _ hpref
            rw [hLHS, hfil, hfind,
              selectLoop_spec la lr rest (if preferred.isNone then some url else preferred)]
            cases hf : List.find? (fun i => strTruthy la && itemPreferred la lr i)
                (List.filter itemHasThumb rest) with
            | some i => rfl
            | none =>
              cases preferred with
              | some u => rfl
              | none => simp [hurl]
        · have hth : itemHasThumb item = false := by
            simp only [itemHasThumb, hurl, hd, Bool.true_and]
            simpa using hu
          simp only [selectLoop, hd, Bool.not_true, if_false, hurl, hu, Bool.not_false,
            if_true, List.filter_cons, hth]
          exact selectLoop_spec la lr rest preferred
    · have hth : itemHasThumb item = false := by simp [itemHasThumb, hd]
      simp only [selectLoop, hd, Bool.not_false, if_true, List.filter_cons, hth]
      exact selectLoop_spec la lr rest preferred

/-- C5 (amended): candidate selection returns the first thumbnail-bearing
result matching the preferred test with a non-empty trimmed query album
(album substring and artist substring or empty artist, case-insensitively),
falling back to the first result with any thumbnail, and absent when no
result has a thumbnail.  When the trimmed query album is empty no result is
preferred and the fallback applies. -/
theorem C5_candidate_selection (album artist : String) (results : List CatalogItem) :
    select_artwork_url album artist results = specSelectAmended album artist results := by
  unfold select_artwork_url specSelectAmended specSelect
  rw [selectLoop_spec]

/-- C5 counterexample: with an empty query album, the code never prefers any
result and returns the first thumbnail URL, while the claim's selection rule
(empty string is a substring of everything) would prefer the later result
whose artist matches. -/
theorem C5_candidate_selection_cex :
    select_artwork_url "" "The Artist" [exItemOther, exItemMatch] = some "url1" ∧
    specSelectOrig "" "The Artist" [exItemOther, exItemMatch] = some "url2" ∧
    select_artwork_url "" "The Artist" [exItemOther, exItemMatch] ≠
      specSelectOrig "" "The Artist" [exItemOther, exItemMatch] := by
  refine ⟨by decide, by decide, by decide⟩

theorem first_tag_eq_specLookup (t : Tags) : ∀ names : List String,
    first_tag t names = specLookup specFieldValueAmended t names
  | [] => rfl
  | n :: rest => by
    simp only [first_tag, specLookup, specFieldValueAmended]
    cases tagsGet t n with
    | none => exact first_tag_eq_specLookup t rest
    | some v =>
      cases v with
      | str s =>
        by_cases h : strTruthy (trimStr s) = true <;>
          simp [h, first_tag_eq_specLookup t rest]
      | strs l =>
        cases l with
        | nil => exact first_tag_eq_specLookup t rest
        | cons v vs =>
          by_cases h : strTruthy (trimStr v) = true <;>
            simp [h, first_tag_eq_specLookup t rest]
      | other => exact first_tag_eq_specLookup t rest

/-- C6 (amended): for every audio file with a readable tag view, extraction
returns the `album` field as title and `albumartist` falling back to
`artist` as artist, where a string field contributes its trimmed value when
non-empty and a sequence field contributes only its first entry, trimmed,
when that is non-empty (later entries are never consulted). -/
theorem C6_tag_extraction (e : Entry) (t : Tags) (h : e.easyTags = some t) :
    extract_album_artist e = specExtract specFieldValueAmended t := by
  unfold extract_album_artist specExtract
  rw [h]
  simp [first_tag_eq_specLookup]

/-- C6 witness: extraction on a concrete readable tag view agrees with the
amended field semantics. -/
theorem C6_tag_extraction_witness :
    exEntryTagged.easyTags = some exTagsFull ∧
    extract_album_artist exEntryTagged = specExtract specFieldValueAmended exTagsFull :=
  ⟨rfl, C6_tag_extraction exEntryTagged exTagsFull rfl⟩

/-- C6 counterexample: an `album` field that is the sequence
`["", "Tago Mago"]` makes the code return no album (only the first entry is
consulted and it trims to empty), while the claim's rule (first non-empty
trimmed entry of the sequence) yields `"Tago Mago"`. -/
theorem C6_tag_extraction_cex :
    exEntrySeq.easyTags = some exTagsSeq ∧
    extract_album_artist exEntrySeq = (none, none) ∧
    specExtract specFieldValue exTagsSeq = (some "Tago Mago", none) ∧
    extract_album_artist exEntrySeq ≠ specExtract specFieldValue exTagsSeq :=
  ⟨rfl, by decide, by decide, by decide⟩

theorem albumArtistLoop_eq_find (d : Dir) : ∀ l : List Entry,
    albumArtistLoop d l =
      (l.find? (fun f => optTruthy (extract_album_artist f).1)).map (fun f =>
        ((extract_album_artist f).1.getD "",
          if optTruthy (extract_album_artist f).2 then (extract_album_artist f).2.getD ""
          else parentFallbackArtist d))
  | [] => rfl
  | f :: fs => by
    cases h1 : optTruthy (extract_album_artist f).1 with
    | false =>
      have hfind : List.find? (fun f => optTruthy (extract_album_artist f).1) (f :: fs) =
          List.find? (fun f => optTruthy (extract_album_artist f).1) fs :=
        List.find?_cons_of_neg _ (by simp [h1])
      simp only [albumArtistLoop, h1, Bool.false_and, if_false, hfind]
      exact albumArtistLoop_eq_find d fs
    | true =>
      have hfind : List.find? (fun f => optTruthy (extract_album_artist f).1) (f :: fs) =
          some f := List.find?_cons_of_pos _ h1
      rw [hfind]
      cases h2 : optTruthy (extract_album_artist f).2 with
      | true => simp [albumArtistLoop, h1, h2]
      | false => simp [albumArtistLoop, h1, h2]

/-- C7: the derived AlbumIdentity is the (album, artist) pair of the first
audio file, in case-insensitive filename order, whose tags contain an album
title; the artist falls back to the stripped parent directory name and the
album/artist fall back to directory-derived names with the Unknown defaults
when empty. -/
theorem C7_album_identity (d : Dir) (exts : List String) :
    album_artist_from_dir d exts = specAlbumIdentity d exts := by
  unfold album_artist_from_dir specAlbumIdentity
  rw [albumArtistLoop_eq_find]
  cases List.find? (fun f => optTruthy (extract_album_artist f).1) (iter_audio_files d exts) with
  | some f => rfl
  | none => rfl

theorem fetch_valid {net : Network} {al ar : String} {b : Bytes}
    (h : fetch_itunes_artwork_bytes net al ar = some b) : looks_like_image b = true := by
  unfold fetch_itunes_artwork_bytes at h
  cases hs : net.searchResults al ar with
  | none => simp only [hs] at h; exact Option.noConfusion h
  | some results =>
    simp only [hs] at h
    cases hsel : select_artwork_url al ar results with
    | none => simp only [hsel] at h; exact Option.noConfusion h
    | some url =>
      simp only [hsel] at h
      cases hd : net.download (String.replace url "100x100bb" "1200x1200bb") with
      | none => simp only [hd] at h; exact Option.noConfusion h
      | some data =>
        simp only [hd] at h
        by_cases hv : looks_like_image data = true
        · rw [if_pos hv] at h
          obtain rfl : data = b := by injection h
          exact hv
        · rw [if_neg hv] at h
          exact absurd h (by simp)

theorem embedded_data_valid {l : List Entry} {exts : List String} {g : Bool} {b : Bytes}
    (h : ((if g then pick_source_with_embedded_art l exts else none).bind
      (fun e => e.embedded)) = some b) : looks_like_image b = true := by
  cases g with
  | false => simp at h
  | true =>
    rw [if_pos rfl] at h
    cases hp : pick_source_with_embedded_art l exts with
    | none => rw [hp] at h; exact absurd h (by simp)
    | some e =>
      rw [hp] at h
      obtain ⟨b', hb', _, hv⟩ := hasUsableArt_embedded (pick_source_some_pred hp)
      simp only [Option.some_bind] at h
      rw [hb'] at h
      obtain rfl : b' = b := by injection h
      exact hv

theorem extractStep_written_valid (a : Args) (hc : Bool) (ed : Option Bytes) (d : Dir)
    (hed : ∀ b, ed = some b → looks_like_image b = true) :
    (extractStep a hc ed d).written.all looks_like_image = true := by
  cases ed with
  | none => unfold extractStep write_cover_jpg; split_ifs <;> simp_all [bytesTruthy]
  | some b =>
    have hb := hed b rfl
    unfold extractStep write_cover_jpg
    split_ifs <;> simp_all

theorem downloadStep_written_valid (net : Network) (a : Args) (exts : List String)
    (origDir : Dir) (hc : Bool) (src : Option Entry) (ed : Option Bytes) (d : Dir) :
    ((downloadStep net a exts origDir hc src ed d).1).written.all looks_like_image = true := by
  unfold downloadStep write_cover_jpg
  cases hf : fetch_itunes_artwork_bytes net (album_artist_from_dir origDir exts).1
      (album_artist_from_dir origDir exts).2 with
  | none => split_ifs <;> simp_all [bytesTruthy]
  | some b =>
    have hb := fetch_valid hf
    split_ifs <;> simp_all [bytesTruthy]

theorem step_written_valid (net : Network) (a : Args) (exts : List String) (d : Dir) :
    (process_album_dir net a exts d).written.all looks_like_image = true := by
  simp only [process_album_dir]
  rw [List.all_append, Bool.and_eq_true]
  exact ⟨extractStep_written_valid _ _ _ _ (fun b hb => embedded_data_valid hb),
    downloadStep_written_valid _ _ _ _ _ _ _ _⟩

/-- C10: every byte payload written to a cover.jpg file, over a whole run,
passes the image-signature check. -/
theorem C10_written_payloads_valid (net : Network) (a : Args) (exts : List String) :
    ∀ dirs : List Dir, (runScan net a exts dirs).written.all looks_like_image = true
  | [] => rfl
  | d :: ds => by
    simp only [runScan]
    rw [List.all_append, Bool.and_eq_true]
    exact ⟨step_written_valid net a exts d, C10_written_payloads_valid net a exts ds⟩

@[simp] theorem addStats_scanned (s t : ScanStats) :
    (addStats s t).album_dirs_scanned = s.album_dirs_scanned + t.album_dirs_scanned := rfl

@[simp] theorem addStats_withc (s t : ScanStats) :
    (addStats s t).album_dirs_with_cover_jpg =
      s.album_dirs_with_cover_jpg + t.album_dirs_with_cover_jpg := rfl

@[simp] theorem addStats_missc (s t : ScanStats) :
    (addStats s t).album_dirs_missing_cover_jpg =
      s.album_dirs_missing_cover_jpg + t.album_dirs_missing_cover_jpg := rfl

@[simp] theorem extractStep_scanned (a : Args) (hc : Bool) (ed : Option Bytes) (d : Dir) :
    (extractStep a hc ed d).stats.album_dirs_scanned = 0 := by
  unfold extractStep; split_ifs <;> rfl

@[simp] theorem extractStep_withc (a : Args) (hc : Bool) (ed : Option Bytes) (d : Dir) :
    (extractStep a hc ed d).stats.album_dirs_with_cover_jpg = 0 := by
  unfold extractStep; split_ifs <;> rfl

@[simp] theorem extractStep_missc (a : Args) (hc : Bool) (ed : Option Bytes) (d : Dir) :
    (extractStep a hc ed d).stats.album_dirs_missing_cover_jpg = 0 := by
  unfold extractStep; split_ifs <;> rfl

@[simp] theorem downloadStep_scanned (net : Network) (a : Args) (exts : List String)
    (origDir : Dir) (hc : Bool) (src : Option Entry) (ed : Option Bytes) (d : Dir) :
    ((downloadStep net a exts origDir hc src ed d).1).stats.album_dirs_scanned = 0 := by
  unfold downloadStep; split_ifs <;> rfl

@[simp] theorem downloadStep_withc (net : Network) (a : Args) (exts : List String)
    (origDir : Dir) (hc : Bool) (src : Option Entry) (ed : Option Bytes) (d : Dir) :
    ((downloadStep net a exts origDir hc src ed d).1).stats.album_dirs_with_cover_jpg = 0 := by
  unfold downloadStep; split_ifs <;> rfl

@[simp] theorem downloadStep_missc (net : Network) (a : Args) (exts : List String)
    (origDir : Dir) (hc : Bool) (src : Option Entry) (ed : Option Bytes) (d : Dir) :
    ((downloadStep net a exts origDir hc src ed d).1).stats.album_dirs_missing_cover_jpg = 0 := by
  unfold downloadStep; split_ifs <;> rfl

theorem step_counter_fields (net : Network) (a : Args) (exts : List String) (d : Dir) :
    (process_album_dir net a exts d).stats.album_dirs_with_cover_jpg +
        (process_album_dir net a exts d).stats.album_dirs_missing_cover_jpg =
      (process_album_dir net a exts d).stats.album_dirs_scanned ∧
    (process_album_dir net a exts d).stats.album_dirs_scanned = 1 := by
  simp only [process_album_dir, addStats_scanned, addStats_withc, addStats_missc,
    extractStep_scanned, extractStep_withc, extractStep_missc,
    downloadStep_scanned, downloadStep_withc, downloadStep_missc]
  cases d.hasCoverJpg <;> simp

/-- C9: after any number of processed album directories, the with-cover and
missing-cover counters sum to the scanned counter. -/
theorem C9_counter_invariant (net : Network) (a : Args) (exts : List String)
    (dirs : List Dir) (n : Nat) :
    (runScan net a exts (dirs.take n)).stats.album_dirs_with_cover_jpg +
        (runScan net a exts (dirs.take n)).stats.album_dirs_missing_cover_jpg =
      (runScan net a exts (dirs.take n)).stats.album_dirs_scanned := by
  have aux : ∀ ds : List Dir,
      (runScan net a exts ds).stats.album_dirs_with_cover_jpg +
          (runScan net a exts ds).stats.album_dirs_missing_cover_jpg =
        (runScan net a exts ds).stats.album_dirs_scanned := by
    intro ds
    induction ds with
    | nil => rfl
    | cons d ds ih =>
      obtain ⟨hs, -⟩ := step_counter_fields net a exts d
      simp only [runScan, addStats]
      omega
  exact aux (dirs.take n)

@[simp] theorem extractStep_dir_writeOk (a : Args) (hc : Bool) (ed : Option Bytes) (d : Dir) :
    (extractStep a hc ed d).dir.writeOk = d.writeOk := by
  unfold extractStep write_cover_jpg; split_ifs <;> rfl

theorem extractStep_stats_eq (a : Args) (hc : Bool) (ed : Option Bytes) (d : Dir) :
    (extractStep a hc ed d).stats =
      (if a.extract && !hc then
        (if bytesTruthy ed then
          (if a.dry_run || d.writeOk then { covers_extracted := 1 }
            else { extraction_failures := 1 })
        else { extraction_failures := 1 })
      else {}) := by
  unfold extractStep write_cover_jpg
  split_ifs <;> simp_all

theorem extractStep_written_eq (a : Args) (hc : Bool) (ed : Option Bytes) (d : Dir) :
    (extractStep a hc ed d).written =
      (if a.extract && !hc && bytesTruthy ed && !a.dry_run && d.writeOk
        then [ed.getD []] else []) := by
  unfold extractStep write_cover_jpg
  split_ifs <;> simp_all

theorem extractStep_dir_eq (a : Args) (hc : Bool) (ed : Option Bytes) (d : Dir) :
    (extractStep a hc ed d).dir =
      (if a.extract && !hc && bytesTruthy ed && !a.dry_run && d.writeOk
        then { d with hasCoverJpg := true } else d) := by
  unfold extractStep write_cover_jpg
  split_ifs <;> simp_all

theorem downloadStep_stats_eq (net : Network) (a : Args) (exts : List String)
    (origDir : Dir) (hc : Bool) (src : Option Entry) (ed : Option Bytes) (d : Dir) :
    ((downloadStep net a exts origDir hc src ed d).1).stats =
      (if a.download_missing_artwork
          && (!hc && !origDir.hasAlbumJpg && !(src.isSome && ed.isSome)) then
        (if bytesTruthy (fetch_itunes_artwork_bytes net
            (album_artist_from_dir origDir exts).1 (album_artist_from_dir origDir exts).2) then
          (if a.dry_run || d.writeOk then { artwork_downloaded := 1 }
            else { download_failures := 1 })
        else { download_failures := 1 })
      else {}) := by
  unfold downloadStep write_cover_jpg
  split_ifs <;> simp_all

theorem downloadStep_written_eq (net : Network) (a : Args) (exts : List String)
    (origDir : Dir) (hc : Bool) (src : Option Entry) (ed : Option Bytes) (d : Dir) :
    ((downloadStep net a exts origDir hc src ed d).1).written =
      (if (a.download_missing_artwork
            && (!hc && !origDir.hasAlbumJpg && !(src.isSome && ed.isSome)))
          && bytesTruthy (fetch_itunes_artwork_bytes net
            (album_artist_from_dir origDir exts).1 (album_artist_from_dir origDir exts).2)
          && !a.dry_run && d.writeOk then
        [(fetch_itunes_artwork_bytes net (album_artist_from_dir origDir exts).1
          (album_artist_from_dir origDir exts).2).getD []]
      else []) := by
  unfold downloadStep write_cover_jpg
  split_ifs <;> simp_all

theorem downloadStep_dir_eq (net : Network) (a : Args) (exts : List String)
    (origDir : Dir) (hc : Bool) (src : Option Entry) (ed : Option Bytes) (d : Dir) :
    ((downloadStep net a exts origDir hc src ed d).1).dir =
      (if (a.download_missing_artwork
            && (!hc && !origDir.hasAlbumJpg && !(src.isSome && ed.isSome)))
          && bytesTruthy (fetch_itunes_artwork_bytes net
            (album_artist_from_dir origDir exts).1 (album_artist_from_dir origDir exts).2)
          && !a.dry_run && d.writeOk then
        { d with hasCoverJpg := true }
      else d) := by
  unfold downloadStep write_cover_jpg
  split_ifs <;> simp_all

theorem step_dry_frame (net : Network) (a : Args) (exts : List String) (d : Dir) :
    (process_album_dir net { a with dry_run := true } exts d).written = [] ∧
    (process_album_dir net { a with dry_run := true } exts d).newDir = d := by
  simp only [process_album_dir, extractStep_written_eq, extractStep_dir_eq,
    downloadStep_written_eq, downloadStep_dir_eq]
  simp

theorem step_dry_stats (net : Network) (a : Args) (exts : List String) (d : Dir)
    (hw : d.writeOk = true) :
    (process_album_dir net { a with dry_run := true } exts d).stats =
      (process_album_dir net { a with dry_run := false } exts d).stats := by
  simp only [process_album_dir, extractStep_stats_eq, downloadStep_stats_eq,
    extractStep_dir_eq]
  simp [hw, apply_ite Dir.writeOk]

/-- C4: with dry-run enabled nothing is written and no directory changes,
while the final counters equal those of the corresponding non-dry-run run in
which every write succeeds. -/
theorem C4_dry_run_frame (net : Network) (a : Args) (exts : List String)
    (dirs : List Dir) :
    (runScan net { a with dry_run := true } exts dirs).written = [] ∧
    (runScan net { a with dry_run := true } exts dirs).dirs = dirs ∧
    ((∀ d ∈ dirs, d.writeOk = true) →
      (runScan net { a with dry_run := true } exts dirs).stats =
        (runScan net { a with dry_run := false } exts dirs).stats) := by
  induction dirs with
  | nil => exact ⟨rfl, rfl, fun _ => rfl⟩
  | cons d ds ih =>
    obtain ⟨ih1, ih2, ih3⟩ := ih
    obtain ⟨hf1, hf2⟩ := step_dry_frame net a exts d
    refine ⟨?_, ?_, ?_⟩
    · simp only [runScan]; rw [hf1, ih1]; rfl
    · simp only [runScan]; rw [hf2, ih2]
    · intro hall
      have hst := step_dry_stats net a exts d (hall d (List.mem_cons_self d ds))
      simp only [runScan]
      rw [hst, ih3 (fun x hx => hall x (List.mem_cons_of_mem d hx))]

/-- C4 witness: the dry-run frame property at a concrete one-directory run. -/
theorem C4_dry_run_frame_witness :
    (∀ d ∈ [exDirX], d.writeOk = true) ∧
    ((runScan exNet { exArgsExtract with dry_run := true } [".mp3"] [exDirX]).written = [] ∧
    (runScan exNet { exArgsExtract with dry_run := true } [".mp3"] [exDirX]).dirs = [exDirX] ∧
    (runScan exNet { exArgsExtract with dry_run := true } [".mp3"] [exDirX]).stats =
      (runScan exNet { exArgsExtract with dry_run := false } [".mp3"] [exDirX]).stats) :=
  ⟨by decide,
    (C4_dry_run_frame exNet exArgsExtract [".mp3"] [exDirX]).1,
    (C4_dry_run_frame exNet exArgsExtract [".mp3"] [exDirX]).2.1,
    (C4_dry_run_frame exNet exArgsExtract [".mp3"] [exDirX]).2.2 (by decide)⟩

@[simp] theorem addStats_covers (s t : ScanStats) :
    (addStats s t).covers_extracted = s.covers_extracted + t.covers_extracted := rfl

@[simp] theorem addStats_exfail (s t : ScanStats) :
    (addStats s t).extraction_failures = s.extraction_failures + t.extraction_failures := rfl

@[simp] theorem addStats_dl (s t : ScanStats) :
    (addStats s t).artwork_downloaded = s.artwork_downloaded + t.artwork_downloaded := rfl

@[simp] theorem addStats_dlfail (s t : ScanStats) :
    (addStats s t).download_failures = s.download_failures + t.download_failures := rfl

/-- C3: an `--extract` run (not dry-run, with a writable directory) on a
directory without a cover but with usable embedded art writes one cover.jpg
and counts one extraction; a second run on the resulting state classifies
the directory as already covered, writes nothing, and leaves the state
unchanged. -/
theorem C3_extract_idempotent (net : Network) (a : Args) (exts : List String) (d : Dir)
    (hx : a.extract = true) (hdry : a.dry_run = false) (hw : d.writeOk = true)
    (hc : d.hasCoverJpg = false)
    (hp : (pick_source_with_embedded_art d.entries exts).isSome = true) :
    (process_album_dir net a exts d).stats.covers_extracted = 1 ∧
    (process_album_dir net a exts d).written.length = 1 ∧
    (process_album_dir net a exts d).newDir.hasCoverJpg = true ∧
    (process_album_dir net a exts
      (process_album_dir net a exts d).newDir).stats.album_dirs_with_cover_jpg = 1 ∧
    (process_album_dir net a exts (process_album_dir net a exts d).newDir).written = [] ∧
    (process_album_dir net a exts (process_album_dir net a exts d).newDir).newDir =
      (process_album_dir net a exts d).newDir := by
  obtain ⟨e, he⟩ := Option.isSome_iff_exists.mp hp
  obtain ⟨b, hb, hbe, hbv⟩ := hasUsableArt_embedded (pick_source_some_pred he)
  have hsrc : (if a.extract || a.report_missing_artwork || a.download_missing_artwork
      then pick_source_with_embedded_art d.entries exts else none) = some e := by
    rw [hx]; simp [he]
  have hbt : bytesTruthy (some b) = true := by simp [bytesTruthy, hbe]
  have hr1dir : (process_album_dir net a exts d).newDir = { d with hasCoverJpg := true } := by
    simp only [process_album_dir, downloadStep_dir_eq, extractStep_dir_eq, hsrc]
    simp [hx, hdry, hw, hc, hb, hbt]
  have hr2dir : (process_album_dir net a exts { d with hasCoverJpg := true }).newDir =
      { d with hasCoverJpg := true } := by
    simp only [process_album_dir, downloadStep_dir_eq, extractStep_dir_eq]
    simp
  refine ⟨?_, ?_, ?_, ?_, ?_, ?_⟩
  · simp only [process_album_dir, extractStep_stats_eq, downloadStep_stats_eq, hsrc]
    simp [hx, hdry, hw, hc, hb, hbt]
  · simp only [process_album_dir, extractStep_written_eq, downloadStep_written_eq, hsrc]
    simp [hx, hdry, hw, hc, hb, hbt]
  · rw [hr1dir]
  · rw [hr1dir]
    simp only [process_album_dir, extractStep_stats_eq, downloadStep_stats_eq]
    simp
  · rw [hr1dir]
    simp only [process_album_dir, extractStep_written_eq, downloadStep_written_eq]
    simp
  · rw [hr1dir, hr2dir]

/-- C3 witness: the idempotence property at a concrete album directory with
one track carrying valid embedded art. -/
theorem C3_extract_idempotent_witness :
    (exArgsExtract.extract = true ∧ exArgsExtract.dry_run = false ∧
      exDirX.writeOk = true ∧ exDirX.hasCoverJpg = false ∧
      (pick_source_with_embedded_art exDirX.entries [".mp3"]).isSome = true) ∧
    ((process_album_dir exNet exArgsExtract [".mp3"] exDirX).stats.covers_extracted = 1 ∧
    (process_album_dir exNet exArgsExtract [".mp3"] exDirX).written.length = 1 ∧
    (process_album_dir exNet exArgsExtract [".mp3"] exDirX).newDir.hasCoverJpg = true ∧
    (process_album_dir exNet exArgsExtract [".mp3"]
      (process_album_dir exNet exArgsExtract [".mp3"] exDirX).newDir).stats.album_dirs_with_cover_jpg = 1 ∧
    (process_album_dir exNet exArgsExtract [".mp3"]
      (process_album_dir exNet exArgsExtract [".mp3"] exDirX).newDir).written = [] ∧
    (process_album_dir exNet exArgsExtract [".mp3"]
      (process_album_dir exNet exArgsExtract [".mp3"] exDirX).newDir).newDir =
      (process_album_dir exNet exArgsExtract [".mp3"] exDirX).newDir) :=
  ⟨⟨rfl, rfl, rfl, rfl, by decide⟩,
    C3_extract_idempotent exNet exArgsExtract [".mp3"] exDirX rfl rfl rfl rfl (by decide)⟩
